import Mathlib

/-!
Verification of the forward-mode automatic-differentiation core of `go-ppl`
(package `autodiff`).  `float64` values are modelled as real numbers and the
Go `math` library's transcendental functions as their Mathlib counterparts
(`math.Pow` as `Real.rpow`).  The user-facing API has two layers:

* pure package-level functions (`NewScalar`, `NewInput`, `NewVariable`,
  `Sin`, `Cos`, `Exp`, `Log`, `Pow`, `Add`, `Mul`, `Gradient`), embedded
  directly as functions on the `Variable` structure (a `panic` becomes
  `Option.none`);

* mutating pointer-receiver methods (`Variable.Add`, `Variable.Sub`,
  `Variable.Mul`, `Variable.Div`), embedded as transformers of an explicit
  store (a list of `Variable` cells addressed by references), translated
  statement by statement so that write ordering and aliasing behave exactly
  as in the Go source.
-/

namespace Autodiff

noncomputable section

/-- `DualNumber` from the source: real part `value`, differential part
`deriv`. -/
structure DualNumber where
  value : ℝ
  deriv : ℝ

/-- `Variable` wraps a dual number (field `dual` as in the source). -/
structure Variable where
  dual : DualNumber

/-- Accessor `(v *Variable) Value()`. -/
def Variable.Value (v : Variable) : ℝ := v.dual.value

/-- Accessor `(v *Variable) Deriv()`. -/
def Variable.Deriv (v : Variable) : ℝ := v.dual.deriv

/-- `NewVariable(value, deriv)`. -/
def NewVariable (value deriv : ℝ) : Variable := ⟨⟨value, deriv⟩⟩

/-- `NewScalar(value)`: derivative 0. -/
def NewScalar (value : ℝ) : Variable := ⟨⟨value, 0⟩⟩

/-- `NewInput(value)`: derivative 1. -/
def NewInput (value : ℝ) : Variable := ⟨⟨value, 1⟩⟩

/-! ### The store model for the mutating pointer-receiver methods

A Go `*Variable` is a reference into a store of allocated `Variable` cells.
Reads out of range return a junk default cell; every theorem below only ever
reads allocated cells. -/

/-- A reference (the address held by a `*Variable`). -/
abbrev Ref := Nat

/-- The heap of allocated `Variable` cells. -/
abbrev Store := List Variable

/-- Dereference: the cell `r` points to. -/
def getV (s : Store) (r : Ref) : Variable := s.getD r ⟨⟨0, 0⟩⟩

/-- Mutating `(v *Variable) Add(v2 *Variable)`:
`v.dual.Value += v2.dual.Value` then `v.dual.Deriv += v2.dual.Deriv`. -/
def Variable.Add (s : Store) (v v2 : Ref) : Store :=
  let s1 := s.set v ⟨⟨(getV s v).Value + (getV s v2).Value, (getV s v).Deriv⟩⟩
  s1.set v ⟨⟨(getV s1 v).Value, (getV s1 v).Deriv + (getV s1 v2).Deriv⟩⟩

/-- Mutating `(v *Variable) Sub(v2 *Variable)`:
`v.dual.Value -= v2.dual.Value` then `v.dual.Deriv -= v2.dual.Deriv`. -/
def Variable.Sub (s : Store) (v v2 : Ref) : Store :=
  let s1 := s.set v ⟨⟨(getV s v).Value - (getV s v2).Value, (getV s v).Deriv⟩⟩
  s1.set v ⟨⟨(getV s1 v).Value, (getV s1 v).Deriv - (getV s1 v2).Deriv⟩⟩

/-- Mutating `(v *Variable) Mul(v2 *Variable)`: first
`v.dual.Deriv = v.dual.Deriv*v2.dual.Value + v.dual.Value*v2.dual.Deriv`,
then `v.dual.Value *= v2.dual.Value`. -/
def Variable.Mul (s : Store) (v v2 : Ref) : Store :=
  let s1 := s.set v
    ⟨⟨(getV s v).Value, (getV s v).Deriv * (getV s v2).Value + (getV s v).Value * (getV s v2).Deriv⟩⟩
  s1.set v ⟨⟨(getV s1 v).Value * (getV s1 v2).Value, (getV s1 v).Deriv⟩⟩

/-- Mutating `(v *Variable) Div(v2 *Variable)`: `panic` (modelled as `none`)
when `v2.dual.Value == 0`, checked before anything is written; otherwise
`v.dual.Deriv = (v.Deriv*v2.Value - v.Value*v2.Deriv)/(v2.Value*v2.Value)`,
then `v.dual.Value /= v2.dual.Value`. -/
def Variable.Div (s : Store) (v v2 : Ref) : Option Store :=
  if (getV s v2).Value = 0 then none
  else
    let s1 := s.set v
      ⟨⟨(getV s v).Value,
        ((getV s v).Deriv * (getV s v2).Value - (getV s v).Value * (getV s v2).Deriv)
          / ((getV s v2).Value * (getV s v2).Value)⟩⟩
    some (s1.set v ⟨⟨(getV s1 v).Value / (getV s1 v2).Value, (getV s1 v).Deriv⟩⟩)

/-! ### Elementary functions and the pure package-level operations -/

/-- `Sin(v)`. -/
def Sin (v : Variable) : Variable :=
  ⟨⟨Real.sin v.dual.value, Real.cos v.dual.value * v.dual.deriv⟩⟩

/-- `Cos(v)`. -/
def Cos (v : Variable) : Variable :=
  ⟨⟨Real.cos v.dual.value, -Real.sin v.dual.value * v.dual.deriv⟩⟩

/-- `Exp(v)`. -/
def Exp (v : Variable) : Variable :=
  let expVal := Real.exp v.dual.value
  ⟨⟨expVal, expVal * v.dual.deriv⟩⟩

/-- `Log(v)`: `panic` (modelled as `none`) when `v.dual.Value <= 0`. -/
def Log (v : Variable) : Option Variable :=
  if v.dual.value ≤ 0 then none
  else some ⟨⟨Real.log v.dual.value, v.dual.deriv / v.dual.value⟩⟩

/-- `Pow(v, exponent)`: `panic` (modelled as `none`) when
`v.dual.Value == 0 && exponent <= 0`; otherwise `powVal := pow(v.Value,
exponent-1)` is shared between the value `powVal * v.Value` and the
derivative `exponent * powVal * v.Deriv`. -/
def Pow (v : Variable) (exponent : ℝ) : Option Variable :=
  if v.dual.value = 0 ∧ exponent ≤ 0 then none
  else
    let powVal := v.dual.value ^ (exponent - 1)
    some ⟨⟨powVal * v.dual.value, exponent * powVal * v.dual.deriv⟩⟩

/-- Package-level pure `Add(v1, v2)`: a newly constructed `Variable`. -/
def Add (v1 v2 : Variable) : Variable :=
  ⟨⟨v1.dual.value + v2.dual.value, v1.dual.deriv + v2.dual.deriv⟩⟩

/-- Package-level pure `Mul(v1, v2)`: a newly constructed `Variable`. -/
def Mul (v1 v2 : Variable) : Variable :=
  ⟨⟨v1.dual.value * v2.dual.value, v1.dual.deriv * v2.dual.value + v1.dual.value * v2.dual.deriv⟩⟩

/-! ### Store-level allocating wrappers for the pure operations

Each Go pure operation reads its argument cells through their pointers and
allocates a fresh cell for the result, returning its reference. -/

/-- Allocate a fresh cell holding `x`. -/
def alloc (s : Store) (x : Variable) : Store × Ref := (s ++ [x], s.length)

/-- Store-level pure `Add`. -/
def AddS (s : Store) (v1 v2 : Ref) : Store × Ref := alloc s (Add (getV s v1) (getV s v2))

/-- Store-level pure `Mul`. -/
def MulS (s : Store) (v1 v2 : Ref) : Store × Ref := alloc s (Mul (getV s v1) (getV s v2))

/-- Store-level `Sin`. -/
def SinS (s : Store) (v : Ref) : Store × Ref := alloc s (Sin (getV s v))

/-- Store-level `Cos`. -/
def CosS (s : Store) (v : Ref) : Store × Ref := alloc s (Cos (getV s v))

/-- Store-level `Exp`. -/
def ExpS (s : Store) (v : Ref) : Store × Ref := alloc s (Exp (getV s v))

/-- Store-level `Log`. -/
def LogS (s : Store) (v : Ref) : Option (Store × Ref) :=
  (Log (getV s v)).map (alloc s)

/-- Store-level `Pow`. -/
def PowS (s : Store) (v : Ref) (exponent : ℝ) : Option (Store × Ref) :=
  (Pow (getV s v) exponent).map (alloc s)

/-! ### The gradient driver -/

/-- `Gradient(f, inputs)`: for each dimension `i` build the sequence that
seeds dimension `i` with `NewInput` and every other dimension with
`NewScalar`, evaluate `f`, and record the result's derivative. -/
def Gradient (f : List Variable → Variable) (inputs : List ℝ) : List ℝ :=
  (List.range inputs.length).map fun i =>
    (f ((List.range inputs.length).map fun j =>
      if i = j then NewInput (inputs.getD j 0) else NewScalar (inputs.getD j 0))).Deriv

/-- Modelled from the spec (§4.5 step 1), for comparison with `Gradient`:
the fresh sequence of `n` Variables that seeds dimension `i` with tangent 1
and every other dimension with tangent 0. -/
def seedSequence (point : List ℝ) (i : Nat) : List Variable :=
  (List.range point.length).map fun j =>
    if i = j then NewInput (point.getD j 0) else NewScalar (point.getD j 0)

end

/-! ### Store helper lemmas -/

theorem getV_set_self (s : Store) (r : Ref) (x : Variable) (h : r < s.length) :
    getV (s.set r x) r = x := by
  simp [getV, List.getD, h]

theorem getV_set_other (s : Store) (r r2 : Ref) (x : Variable) (h : r ≠ r2) :
    getV (s.set r x) r2 = getV s r2 := by
  simp [getV, List.getD, List.getElem?_set_ne h]

theorem getV_append (s t : Store) (r : Ref) (h : r < s.length) :
    getV (s ++ t) r = getV s r := by
  simp [getV, List.getD, List.getElem?_append_left h]

/-! ### Claims -/

/-- C5: for all dual pairs `(a, a')` and `(b, b')`, the package-level pure
`Add` returns a new `Variable` equal to `(a+b, a'+b')` and the package-level
pure `Mul` returns a new `Variable` equal to `(a*b, a'*b + a*b')`. -/
theorem pure_add_mul_laws (a a' b b' : ℝ) :
    Add ⟨⟨a, a'⟩⟩ ⟨⟨b, b'⟩⟩ = ⟨⟨a + b, a' + b'⟩⟩ ∧
    Mul ⟨⟨a, a'⟩⟩ ⟨⟨b, b'⟩⟩ = ⟨⟨a * b, a' * b + a * b'⟩⟩ :=
  ⟨rfl, rfl⟩

/-- C2: for all dual pairs `(a, a')` and `(b, b')` (cells 0 and 1 of a fresh
store), division fails with DivisionByZero (`none`) iff `b = 0`, and when
`b ≠ 0` it writes the quotient-rule result `(a/b, (a'·b − a·b')/b²)` into the
receiver, leaving the divisor cell untouched. -/
theorem div_quotient_rule (a a' b b' : ℝ) :
    (Variable.Div [⟨⟨a, a'⟩⟩, ⟨⟨b, b'⟩⟩] 0 1 = none ↔ b = 0) ∧
    (b ≠ 0 → Variable.Div [⟨⟨a, a'⟩⟩, ⟨⟨b, b'⟩⟩] 0 1 =
      some [⟨⟨a / b, (a' * b - a * b') / (b * b)⟩⟩, ⟨⟨b, b'⟩⟩]) := by
  constructor
  · by_cases hb : b = 0 <;>
      simp [Variable.Div, getV, Variable.Value, List.getD, hb]
  · intro hb
    simp [Variable.Div, getV, Variable.Value, Variable.Deriv, List.getD, hb]

/-- C4: `Log(v)` fails with DomainError (`none`) iff `v.value ≤ 0`;
otherwise it returns a new `Variable` with value `ln(v.value)` and tangent
`v.tangent / v.value`. -/
theorem log_domain (val d : ℝ) :
    (Log ⟨⟨val, d⟩⟩ = none ↔ val ≤ 0) ∧
    (¬ val ≤ 0 → Log ⟨⟨val, d⟩⟩ = some ⟨⟨Real.log val, d / val⟩⟩) := by
  constructor
  · by_cases h : val ≤ 0 <;> simp [Log, h]
  · intro h; simp [Log, h]

/-- C9: whenever the divisor cell's value component is 0, the mutating
`Div` fails with DivisionByZero (`none`): the check precedes every write, so
no updated store — and in particular no partial result in the receiver —
is ever produced. -/
theorem div_by_zero_aborts (s : Store) (v v2 : Ref) (h : (getV s v2).Value = 0) :
    Variable.Div s v v2 = none := by
  simp [Variable.Div, h]

/-- Witness for C9 at `v = variable(1,1)`, `v2 = scalar(0)`. -/
theorem div_by_zero_aborts_witness :
    Variable.Div [⟨⟨1, 1⟩⟩, ⟨⟨0, 0⟩⟩] 0 1 = none :=
  div_by_zero_aborts [⟨⟨1, 1⟩⟩, ⟨⟨0, 0⟩⟩] 0 1 (by simp [getV, Variable.Value, List.getD])

/-- C8: with `x = input(2.0)` and `y = input(3.0)`, the expression
`z = Add(Mul(x, y), Sin(x))` yields `z.value = 6 + sin 2` (≈ 6.909297) and
`z.tangent = 5 + cos 2` (≈ 4.583853), the directional derivative along
`(1,1)`. -/
theorem scenario_one :
    (Add (Mul (NewInput 2) (NewInput 3)) (Sin (NewInput 2))).Value = 6 + Real.sin 2 ∧
    (Add (Mul (NewInput 2) (NewInput 3)) (Sin (NewInput 2))).Deriv = 5 + Real.cos 2 := by
  constructor <;>
    · simp [Add, Mul, Sin, NewInput, Variable.Value, Variable.Deriv]
      ring

/-- The shared intermediate `powVal = v.value^(e-1)` recombines with the
base to the full power `v.value^e` away from the singular case. -/
theorem powVal_mul_base (val e : ℝ) (h : ¬(val = 0 ∧ e ≤ 0)) :
    val ^ (e - 1) * val = val ^ e := by
  by_cases hval : val = 0
  · subst hval
    have he : e ≠ 0 := by
      intro h0
      exact h ⟨rfl, le_of_eq h0⟩
    rw [mul_zero, Real.zero_rpow he]
  · rw [← Real.rpow_add_one hval (e - 1), sub_add_cancel]

/-- C3: `Pow(v, e)` fails with DomainError (`none`) iff `v.value = 0` and
`e ≤ 0`; otherwise it returns a new `Variable` with value `v.value ^ e` and
tangent `e · v.value^(e-1) · v.tangent`. -/
theorem pow_domain (val d e : ℝ) :
    (Pow ⟨⟨val, d⟩⟩ e = none ↔ val = 0 ∧ e ≤ 0) ∧
    (¬(val = 0 ∧ e ≤ 0) →
      Pow ⟨⟨val, d⟩⟩ e = some ⟨⟨val ^ e, e * val ^ (e - 1) * d⟩⟩) := by
  constructor
  · by_cases h : val = 0 ∧ e ≤ 0 <;> simp [Pow, h]
  · intro h
    simp only [Pow, if_neg h, Option.some.injEq]
    rw [powVal_mul_base val e h]

/-- C1: `Gradient(f, point)` returns a vector of the same length as `point`
whose `i`-th entry is the tangent of `f` evaluated on the fresh sequence
that seeds dimension `i` with tangent 1 and every other dimension with
tangent 0; in particular `Gradient(f, [2, 3])` with `f(v) = Mul(v[0], v[1])`
returns `[3, 2]`. -/
theorem gradient_spec (f : List Variable → Variable) (point : List ℝ) :
    (Gradient f point).length = point.length ∧
    (∀ i, i < point.length →
      (Gradient f point).getD i 0 = (f (seedSequence point i)).Deriv) ∧
    Gradient (fun v => Mul (v.getD 0 ⟨⟨0, 0⟩⟩) (v.getD 1 ⟨⟨0, 0⟩⟩)) [2, 3] = [3, 2] := by
  refine ⟨by simp [Gradient], ?_, ?_⟩
  · intro i hi
    simp [Gradient, seedSequence, List.getD_eq_getElem?_getD, List.getElem?_range hi]
  · show (List.range 2).map _ = _
    rw [List.range_succ, List.range_succ, List.range_zero]
    simp [Gradient, Mul, NewInput, NewScalar, Variable.Deriv, List.getD]

/-- C6: the pure package-level `Add` and `Mul` and the Elementary Functions
`Sin`, `Cos`, `Exp`, `Log`, `Pow` only allocate a fresh result cell: every
cell already in the store — in particular the argument cells — holds exactly
the dual value it held before the call. -/
theorem pure_ops_frame (s : Store) (v1 v2 : Ref) (e : ℝ) (r : Ref) (hr : r < s.length) :
    getV (AddS s v1 v2).1 r = getV s r ∧
    getV (MulS s v1 v2).1 r = getV s r ∧
    getV (SinS s v1).1 r = getV s r ∧
    getV (CosS s v1).1 r = getV s r ∧
    getV (ExpS s v1).1 r = getV s r ∧
    (∀ out, LogS s v1 = some out → getV out.1 r = getV s r) ∧
    (∀ out, PowS s v1 e = some out → getV out.1 r = getV s r) := by
  refine ⟨getV_append _ _ _ hr, getV_append _ _ _ hr, getV_append _ _ _ hr,
    getV_append _ _ _ hr, getV_append _ _ _ hr, ?_, ?_⟩
  · intro out hout
    obtain ⟨w, -, rfl⟩ := Option.map_eq_some'.mp hout
    exact getV_append _ _ _ hr
  · intro out hout
    obtain ⟨w, -, rfl⟩ := Option.map_eq_some'.mp hout
    exact getV_append _ _ _ hr

/-- Witness for C6: a two-cell store, both arguments allocated. -/
theorem pure_ops_frame_witness :
    getV (AddS [⟨⟨1, 2⟩⟩, ⟨⟨3, 4⟩⟩] 0 1).1 0 = getV [⟨⟨1, 2⟩⟩, ⟨⟨3, 4⟩⟩] 0 ∧
    getV (MulS [⟨⟨1, 2⟩⟩, ⟨⟨3, 4⟩⟩] 0 1).1 0 = getV [⟨⟨1, 2⟩⟩, ⟨⟨3, 4⟩⟩] 0 ∧
    getV (SinS [⟨⟨1, 2⟩⟩, ⟨⟨3, 4⟩⟩] 0).1 0 = getV [⟨⟨1, 2⟩⟩, ⟨⟨3, 4⟩⟩] 0 ∧
    getV (CosS [⟨⟨1, 2⟩⟩, ⟨⟨3, 4⟩⟩] 0).1 0 = getV [⟨⟨1, 2⟩⟩, ⟨⟨3, 4⟩⟩] 0 ∧
    getV (ExpS [⟨⟨1, 2⟩⟩, ⟨⟨3, 4⟩⟩] 0).1 0 = getV [⟨⟨1, 2⟩⟩, ⟨⟨3, 4⟩⟩] 0 ∧
    (∀ out, LogS [⟨⟨1, 2⟩⟩, ⟨⟨3, 4⟩⟩] 0 = some out →
      getV out.1 0 = getV [⟨⟨1, 2⟩⟩, ⟨⟨3, 4⟩⟩] 0) ∧
    (∀ out, PowS [⟨⟨1, 2⟩⟩, ⟨⟨3, 4⟩⟩] 0 2 = some out →
      getV out.1 0 = getV [⟨⟨1, 2⟩⟩, ⟨⟨3, 4⟩⟩] 0) :=
  pure_ops_frame [⟨⟨1, 2⟩⟩, ⟨⟨3, 4⟩⟩] 0 1 2 0 (by decide)

/-- C7: the mutating operators write the corresponding dual-value law's
result into the receiver cell `v` and leave the cell `v2` of the second
operand unchanged (for distinct allocated cells); in particular after
`v.Mul(v2)` the receiver's value is the product and its tangent follows the
product rule, and `v.Div(v2)`, when it succeeds, writes the quotient rule. -/
theorem mutating_ops_spec (s : Store) (v v2 : Ref)
    (hv : v < s.length) (hv2 : v2 < s.length) (hne : v ≠ v2) :
    (getV (Variable.Add s v v2) v =
        ⟨⟨(getV s v).Value + (getV s v2).Value, (getV s v).Deriv + (getV s v2).Deriv⟩⟩ ∧
      getV (Variable.Add s v v2) v2 = getV s v2) ∧
    (getV (Variable.Sub s v v2) v =
        ⟨⟨(getV s v).Value - (getV s v2).Value, (getV s v).Deriv - (getV s v2).Deriv⟩⟩ ∧
      getV (Variable.Sub s v v2) v2 = getV s v2) ∧
    (getV (Variable.Mul s v v2) v =
        ⟨⟨(getV s v).Value * (getV s v2).Value,
          (getV s v).Deriv * (getV s v2).Value + (getV s v).Value * (getV s v2).Deriv⟩⟩ ∧
      getV (Variable.Mul s v v2) v2 = getV s v2) ∧
    (∀ s', Variable.Div s v v2 = some s' →
      getV s' v =
        ⟨⟨(getV s v).Value / (getV s v2).Value,
          ((getV s v).Deriv * (getV s v2).Value - (getV s v).Value * (getV s v2).Deriv)
            / ((getV s v2).Value * (getV s v2).Value)⟩⟩ ∧
      getV s' v2 = getV s v2) := by
  refine ⟨⟨?_, ?_⟩, ⟨?_, ?_⟩, ⟨?_, ?_⟩, ?_⟩
  · simp [Variable.Add, Variable.Value, Variable.Deriv, getV_set_self, getV_set_other,
      hv, hne]
  · simp [Variable.Add, getV_set_other, hne]
  · simp [Variable.Sub, Variable.Value, Variable.Deriv, getV_set_self, getV_set_other,
      hv, hne]
  · simp [Variable.Sub, getV_set_other, hne]
  · simp [Variable.Mul, Variable.Value, Variable.Deriv, getV_set_self, getV_set_other,
      hv, hne]
  · simp [Variable.Mul, getV_set_other, hne]
  · intro s' hs'
    rw [Variable.Div] at hs'
    by_cases hb : (getV s v2).Value = 0
    · simp [hb] at hs'
    · simp only [if_neg hb, Option.some.injEq] at hs'
      subst hs'
      constructor
      · simp [Variable.Value, Variable.Deriv, getV_set_self, getV_set_other, hv, hne]
      · simp [getV_set_other, hne]

/-- Witness for C7: receiver cell 0, operand cell 1. -/
theorem mutating_ops_spec_witness :
    (getV (Variable.Add [⟨⟨1, 2⟩⟩, ⟨⟨3, 4⟩⟩] 0 1) 0 =
        ⟨⟨(getV [⟨⟨1, 2⟩⟩, ⟨⟨3, 4⟩⟩] 0).Value + (getV [⟨⟨1, 2⟩⟩, ⟨⟨3, 4⟩⟩] 1).Value,
          (getV [⟨⟨1, 2⟩⟩, ⟨⟨3, 4⟩⟩] 0).Deriv + (getV [⟨⟨1, 2⟩⟩, ⟨⟨3, 4⟩⟩] 1).Deriv⟩⟩ ∧
      getV (Variable.Add [⟨⟨1, 2⟩⟩, ⟨⟨3, 4⟩⟩] 0 1) 1 = getV [⟨⟨1, 2⟩⟩, ⟨⟨3, 4⟩⟩] 1) ∧
    (getV (Variable.Sub [⟨⟨1, 2⟩⟩, ⟨⟨3, 4⟩⟩] 0 1) 0 =
        ⟨⟨(getV [⟨⟨1, 2⟩⟩, ⟨⟨3, 4⟩⟩] 0).Value - (getV [⟨⟨1, 2⟩⟩, ⟨⟨3, 4⟩⟩] 1).Value,
          (getV [⟨⟨1, 2⟩⟩, ⟨⟨3, 4⟩⟩] 0).Deriv - (getV [⟨⟨1, 2⟩⟩, ⟨⟨3, 4⟩⟩] 1).Deriv⟩⟩ ∧
      getV (Variable.Sub [⟨⟨1, 2⟩⟩, ⟨⟨3, 4⟩⟩] 0 1) 1 = getV [⟨⟨1, 2⟩⟩, ⟨⟨3, 4⟩⟩] 1) ∧
    (getV (Variable.Mul [⟨⟨1, 2⟩⟩, ⟨⟨3, 4⟩⟩] 0 1) 0 =
        ⟨⟨(getV [⟨⟨1, 2⟩⟩, ⟨⟨3, 4⟩⟩] 0).Value * (getV [⟨⟨1, 2⟩⟩, ⟨⟨3, 4⟩⟩] 1).Value,
          (getV [⟨⟨1, 2⟩⟩, ⟨⟨3, 4⟩⟩] 0).Deriv * (getV [⟨⟨1, 2⟩⟩, ⟨⟨3, 4⟩⟩] 1).Value +
            (getV [⟨⟨1, 2⟩⟩, ⟨⟨3, 4⟩⟩] 0).Value * (getV [⟨⟨1, 2⟩⟩, ⟨⟨3, 4⟩⟩] 1).Deriv⟩⟩ ∧
      getV (Variable.Mul [⟨⟨1, 2⟩⟩, ⟨⟨3, 4⟩⟩] 0 1) 1 = getV [⟨⟨1, 2⟩⟩, ⟨⟨3, 4⟩⟩] 1) ∧
    (∀ s', Variable.Div [⟨⟨1, 2⟩⟩, ⟨⟨3, 4⟩⟩] 0 1 = some s' →
      getV s' 0 =
        ⟨⟨(getV [⟨⟨1, 2⟩⟩, ⟨⟨3, 4⟩⟩] 0).Value / (getV [⟨⟨1, 2⟩⟩, ⟨⟨3, 4⟩⟩] 1).Value,
          ((getV [⟨⟨1, 2⟩⟩, ⟨⟨3, 4⟩⟩] 0).Deriv * (getV [⟨⟨1, 2⟩⟩, ⟨⟨3, 4⟩⟩] 1).Value -
              (getV [⟨⟨1, 2⟩⟩, ⟨⟨3, 4⟩⟩] 0).Value * (getV [⟨⟨1, 2⟩⟩, ⟨⟨3, 4⟩⟩] 1).Deriv)
            / ((getV [⟨⟨1, 2⟩⟩, ⟨⟨3, 4⟩⟩] 1).Value * (getV [⟨⟨1, 2⟩⟩, ⟨⟨3, 4⟩⟩] 1).Value)⟩⟩ ∧
      getV s' 1 = getV [⟨⟨1, 2⟩⟩, ⟨⟨3, 4⟩⟩] 1) :=
  mutating_ops_spec [⟨⟨1, 2⟩⟩, ⟨⟨3, 4⟩⟩] 0 1 (by decide) (by decide) (by decide)

/-- C10: when both operands of a mutating operator are the same cell
(self-aliasing) the result is still the correct dual-number arithmetic:
`v.Add(v)` leaves `(2·value, 2·tangent)`, `v.Mul(v)` leaves
`(value², 2·value·tangent)` — the tangent is computed from the old value
before the value field is overwritten — and `v.Div(v)` with `value ≠ 0`
leaves `(1, 0)`. -/
theorem aliasing_mutating_ops (s : Store) (v : Ref) (hv : v < s.length) :
    getV (Variable.Add s v v) v = ⟨⟨2 * (getV s v).Value, 2 * (getV s v).Deriv⟩⟩ ∧
    getV (Variable.Mul s v v) v =
      ⟨⟨(getV s v).Value * (getV s v).Value, 2 * (getV s v).Value * (getV s v).Deriv⟩⟩ ∧
    ((getV s v).Value ≠ 0 → Variable.Div s v v = some (s.set v ⟨⟨1, 0⟩⟩)) := by
  refine ⟨?_, ?_, ?_⟩
  · simp [Variable.Add, Variable.Value, Variable.Deriv, getV_set_self, hv]
    constructor <;> ring
  · simp [Variable.Mul, Variable.Value, Variable.Deriv, getV_set_self, hv]
    ring
  · intro ha
    have ha' : (getV s v).dual.value ≠ 0 := ha
    rw [Variable.Div, if_neg ha]
    simp only [List.set_set, Option.some.injEq]
    have h1 : getV (s.set v
        ⟨⟨(getV s v).Value,
          ((getV s v).Deriv * (getV s v).Value - (getV s v).Value * (getV s v).Deriv)
            / ((getV s v).Value * (getV s v).Value)⟩⟩) v =
        ⟨⟨(getV s v).Value,
          ((getV s v).Deriv * (getV s v).Value - (getV s v).Value * (getV s v).Deriv)
            / ((getV s v).Value * (getV s v).Value)⟩⟩ :=
      getV_set_self _ _ _ (by simpa using hv)
    rw [h1]
    congr 1
    have hnum : (getV s v).dual.deriv * (getV s v).dual.value
        - (getV s v).dual.value * (getV s v).dual.deriv = 0 := by ring
    simp [Variable.Value, Variable.Deriv, Variable.mk.injEq, DualNumber.mk.injEq,
      hnum, div_self ha']

/-- Witness for C10 at the one-cell store `[variable(3, 4)]`. -/
theorem aliasing_mutating_ops_witness :
    getV (Variable.Add [⟨⟨3, 4⟩⟩] 0 0) 0 =
      ⟨⟨2 * (getV [⟨⟨3, 4⟩⟩] 0).Value, 2 * (getV [⟨⟨3, 4⟩⟩] 0).Deriv⟩⟩ ∧
    getV (Variable.Mul [⟨⟨3, 4⟩⟩] 0 0) 0 =
      ⟨⟨(getV [⟨⟨3, 4⟩⟩] 0).Value * (getV [⟨⟨3, 4⟩⟩] 0).Value,
        2 * (getV [⟨⟨3, 4⟩⟩] 0).Value * (getV [⟨⟨3, 4⟩⟩] 0).Deriv⟩⟩ ∧
    ((getV [⟨⟨3, 4⟩⟩] 0).Value ≠ 0 →
      Variable.Div [⟨⟨3, 4⟩⟩] 0 0 = some ([⟨⟨3, 4⟩⟩].set 0 ⟨⟨1, 0⟩⟩)) :=
  aliasing_mutating_ops [⟨⟨3, 4⟩⟩] 0 (by decide)

end Autodiff
